import Mathlib

set_option linter.unusedVariables false

/-!
Verification of the ModelZoo control plane / reverse proxy.

This file shallowly embeds the parts of the source relevant to the frozen
claims:

* `base.py` — `Environment`, `EnvironmentSet.get_combined_vars`,
  `RunningModel._start_process` (child environment construction) and
  `RunningModel.stop`.
* `protocols.py` — the `PROTOCOLS` table and the payload adapters.
* `proxy.py` — `setup_routes`, `get_models` and `_handle_request`
  (candidate construction, least-connections selection, payload
  adaptation, forwarding, connection-count bookkeeping).
* `zk.py` — `ZooKeeper.get_available_models` (local list plus peer
  fan-out).

Python dicts are modelled as insertion-ordered association lists with
unique keys maintained by the operations; mutation of a dict object is
made explicit by threading the object's final contents through the
embedded functions.  Network calls are modelled by oracles supplied as
arguments.
-/

namespace ModelZoo

/-- A JSON-ish scalar value as found in request/response payloads. -/
inductive JVal where
  | s (v : String)
  | n (v : Int)
  | b (v : Bool)
  | null
deriving DecidableEq, Repr

/-- A Python dict with string keys, as an insertion-ordered association
list.  All operations below preserve key uniqueness. -/
abbrev Dict (α : Type) := List (String × α)

/-- A request or response payload: a dict of JSON values. -/
abbrev Payload := Dict JVal

/-- `d[k]`-style lookup: the value at the first occurrence of key `k`. -/
def dget {α : Type} (d : Dict α) (k : String) : Option α :=
  (d.find? (fun kv => kv.1 = k)).map (fun kv => kv.2)

/-- `d[k] = v`: replace the value at key `k` in place, or append the pair
if the key is absent (Python dict assignment keeps insertion position). -/
def dset {α : Type} : Dict α → String → α → Dict α
  | [], k, v => [(k, v)]
  | (k0, v0) :: rest, k, v =>
    if k0 = k then (k0, v) :: rest else (k0, v0) :: dset rest k v

/-- `k in d`: key membership. -/
def din {α : Type} (d : Dict α) (k : String) : Bool :=
  (dget d k).isSome

/-- `d.pop(k)`: the removed value (if any) and the remaining dict. -/
def dpop {α : Type} (d : Dict α) (k : String) : Option α × Dict α :=
  (dget d k, d.filter (fun kv => ¬ kv.1 = k))

@[simp] theorem dget_nil {α : Type} (k : String) : dget ([] : Dict α) k = none := rfl

theorem dget_cons {α : Type} (k0 : String) (v0 : α) (rest : Dict α) (k : String) :
    dget ((k0, v0) :: rest) k = if k0 = k then some v0 else dget rest k := by
  by_cases h : k0 = k <;> simp [dget, List.find?, h]

theorem dget_dset_self {α : Type} (d : Dict α) (k : String) (v : α) :
    dget (dset d k v) k = some v := by
  induction d with
  | nil => simp [dset, dget_cons]
  | cons hd tl ih =>
    obtain ⟨k0, v0⟩ := hd
    by_cases h : k0 = k
    · simp [dset, h, dget_cons]
    · simp [dset, h, dget_cons, ih]

theorem dget_dset_other {α : Type} (d : Dict α) (k k' : String) (v : α) (h : k' ≠ k) :
    dget (dset d k v) k' = dget d k' := by
  induction d with
  | nil => simp [dset, dget_cons, Ne.symm h]
  | cons hd tl ih =>
    obtain ⟨k0, v0⟩ := hd
    rw [dset]
    by_cases h0 : k0 = k
    · subst h0
      have hk' : ¬ (k0 = k') := Ne.symm h
      simp [dget_cons, hk']
    · simp [dget_cons, h0, ih]

theorem dget_append {α : Type} (d1 d2 : Dict α) (k : String) :
    dget (d1 ++ d2) k = ((dget d1 k).map some).getD (dget d2 k) := by
  induction d1 with
  | nil => simp
  | cons hd tl ih =>
    obtain ⟨k0, v0⟩ := hd
    by_cases h : k0 = k <;> simp [dget_cons, h, ih]

theorem mem_of_dget_eq_some {α : Type} (d : Dict α) (k : String) (v : α)
    (h : dget d k = some v) : (k, v) ∈ d := by
  induction d with
  | nil => cases h
  | cons hd tl ih =>
    obtain ⟨k0, v0⟩ := hd
    rw [dget_cons] at h
    by_cases hk : k0 = k
    · rw [if_pos hk] at h
      injection h with h
      subst hk
      subst h
      exact List.mem_cons_self _ _
    · rw [if_neg hk] at h
      exact List.mem_cons_of_mem _ (ih h)

theorem not_mem_keys_of_dget_eq_none {α : Type} (d : Dict α) (k : String)
    (h : dget d k = none) : k ∉ d.map Prod.fst := by
  induction d with
  | nil => simp
  | cons hd tl ih =>
    obtain ⟨k0, v0⟩ := hd
    rw [dget_cons] at h
    by_cases hk : k0 = k
    · rw [if_pos hk] at h
      cases h
    · rw [if_neg hk] at h
      simp only [List.map_cons, List.mem_cons, not_or]
      exact ⟨Ne.symm hk, ih h⟩

theorem dget_eq_of_mem_nodup {α : Type} (d : Dict α) (k : String) (v : α)
    (hn : (d.map Prod.fst).Nodup) (hm : (k, v) ∈ d) : dget d k = some v := by
  induction d with
  | nil => cases hm
  | cons hd tl ih =>
    obtain ⟨k0, v0⟩ := hd
    simp only [List.map_cons, List.nodup_cons] at hn
    rcases List.mem_cons.mp hm with h | h
    · obtain ⟨h1, h2⟩ := Prod.mk.inj h
      subst h1
      subst h2
      simp [dget_cons]
    · have hk : k0 ≠ k := by
        rintro rfl
        exact hn.1 (List.mem_map.mpr ⟨(k0, v), h, rfl⟩)
      simp [dget_cons, hk, ih hn.2 h]

/-! ## `base.py`: environments -/

/-- `base.Environment`: a named bag of environment variables.  `vars` is a
Python dict, so its keys are unique. -/
structure Environment where
  name : String
  vars : Dict String
deriving DecidableEq, Repr

/-- One step of `EnvironmentSet.get_combined_vars`: insert `(k, v)` into
the accumulator; on key collision the values are joined with a comma. -/
def insertVar (acc : Dict String) (k v : String) : Dict String :=
  match dget acc k with
  | some old => dset acc k (old ++ "," ++ v)
  | none => acc ++ [(k, v)]

/-- `EnvironmentSet.get_combined_vars`: left-to-right merge of the member
environments' variables, comma-joining values on key collision. -/
def get_combined_vars (environments : List Environment) : Dict String :=
  environments.foldl
    (fun acc env => env.vars.foldl (fun a kv => insertVar a kv.1 kv.2) acc) []

/-- `EnvironmentSet.get_combined_name`: `+`-join of member names, or
`empty`. -/
def get_combined_name (environments : List Environment) : String :=
  if environments.isEmpty then "empty"
  else String.intercalate "+" (environments.map Environment.name)

/-- `dict.update`: set every key of `upd` in `base` (later wins on plain
overlap). -/
def dict_update {α : Type} (base upd : Dict α) : Dict α :=
  upd.foldl (fun acc kv => dset acc kv.1 kv.2) base

/-- `RunningModel._start_process` environment construction: host env,
updated with the combined `EnvironmentSet` vars, then the extra
environment, then the forced `CUDA_DEVICE_ORDER=PCI_BUS_ID`. -/
def start_process_env (host_env : Dict String) (environment_set : List Environment)
    (extra_environment : Dict String) : Dict String :=
  dict_update
    (dict_update (dict_update host_env (get_combined_vars environment_set))
      extra_environment)
    [("CUDA_DEVICE_ORDER", "PCI_BUS_ID")]

theorem dget_insertVar_self (acc : Dict String) (k v : String) :
    dget (insertVar acc k v) k =
      some ((dget acc k).elim v (fun old => old ++ "," ++ v)) := by
  unfold insertVar
  cases h : dget acc k with
  | some old => simp [dget_dset_self]
  | none => simp [dget_append, h, dget_cons]

theorem dget_insertVar_other (acc : Dict String) (k k' v : String) (h : k' ≠ k) :
    dget (insertVar acc k v) k' = dget acc k' := by
  unfold insertVar
  cases hh : dget acc k with
  | some old => simp [dget_dset_other _ _ _ _ h]
  | none =>
    rw [dget_append]
    cases hacc : dget acc k' <;> simp [dget_cons, Ne.symm h]

/-- Folding a variable list whose keys avoid `k` leaves the value at `k`
unchanged. -/
theorem fold_insertVar_not_mem (l : Dict String) (k : String) :
    ∀ acc, k ∉ l.map Prod.fst →
      dget (l.foldl (fun a kv => insertVar a kv.1 kv.2) acc) k = dget acc k := by
  induction l with
  | nil => intro acc _; rfl
  | cons hd tl ih =>
    obtain ⟨k0, v0⟩ := hd
    intro acc h
    simp only [List.map_cons, List.mem_cons, not_or] at h
    rw [List.foldl_cons, ih _ h.2, dget_insertVar_other _ _ _ _ h.1]

/-- Folding a variable list with unique keys containing `(k, v)` combines
`v` into the accumulator's value at `k` exactly once. -/
theorem fold_insertVar_mem (l : Dict String) (k v : String) :
    ∀ acc, (l.map Prod.fst).Nodup → (k, v) ∈ l →
      dget (l.foldl (fun a kv => insertVar a kv.1 kv.2) acc) k =
        some ((dget acc k).elim v (fun old => old ++ "," ++ v)) := by
  induction l with
  | nil => intro _ _ hm; cases hm
  | cons hd tl ih =>
    obtain ⟨k0, v0⟩ := hd
    intro acc hn hm
    simp only [List.map_cons, List.nodup_cons] at hn
    rcases List.mem_cons.mp hm with h | h
    · obtain ⟨h1, h2⟩ := Prod.mk.inj (by exact h : (k, v) = (k0, v0))
      subst h1
      subst h2
      rw [List.foldl_cons, fold_insertVar_not_mem _ _ _ hn.1, dget_insertVar_self]
    · have hk : k0 ≠ k := by
        rintro rfl
        exact hn.1 (List.mem_map.mpr ⟨(k0, v), h, rfl⟩)
      rw [List.foldl_cons, ih _ hn.2 h, dget_insertVar_other _ _ _ _ (Ne.symm hk)]

/-- `dict.update` with keys avoiding `k` leaves the value at `k`
unchanged. -/
theorem dget_dict_update_not_mem {α : Type} (upd : Dict α) (k : String) :
    ∀ base, k ∉ upd.map Prod.fst → dget (dict_update base upd) k = dget base k := by
  induction upd with
  | nil => intro base _; rfl
  | cons hd tl ih =>
    obtain ⟨k0, v0⟩ := hd
    intro base h
    simp only [List.map_cons, List.mem_cons, not_or] at h
    rw [dict_update, List.foldl_cons]
    rw [show tl.foldl (fun acc kv => dset acc kv.1 kv.2) (dset base k0 v0) =
          dict_update (dset base k0 v0) tl from rfl]
    rw [ih _ h.2, dget_dset_other _ _ _ _ h.1]

/-- `dict.update` always ends up holding `upd`'s value on `upd`'s keys. -/
theorem dget_dict_update_mem {α : Type} (upd : Dict α) (k : String) (v : α) :
    ∀ base, (upd.map Prod.fst).Nodup → (k, v) ∈ upd →
      dget (dict_update base upd) k = some v := by
  induction upd with
  | nil => intro _ _ hm; cases hm
  | cons hd tl ih =>
    obtain ⟨k0, v0⟩ := hd
    intro base hn hm
    simp only [List.map_cons, List.nodup_cons] at hn
    rcases List.mem_cons.mp hm with h | h
    · obtain ⟨h1, h2⟩ := Prod.mk.inj (by exact h : (k, v) = (k0, v0))
      subst h1
      subst h2
      rw [dict_update, List.foldl_cons]
      rw [show tl.foldl (fun acc kv => dset acc kv.1 kv.2) (dset base k v) =
            dict_update (dset base k v) tl from rfl]
      rw [dget_dict_update_not_mem _ _ _ hn.1, dget_dset_self]
    · rw [dict_update, List.foldl_cons]
      exact ih _ hn.2 h

/-- The claim's composition table for an ordered pair of environments. -/
def pairCombination (e1 e2 : Option String) : Option String :=
  match e1, e2 with
  | some v1, some v2 => some (v1 ++ "," ++ v2)
  | some v1, none => some v1
  | none, some v2 => some v2
  | none, none => none

/-- **C7.** For an ordered pair of environments `[E1, E2]` the combined
variable map takes `E1`'s value on keys only in `E1`, `E2`'s value on keys
only in `E2`, and the comma concatenation on shared keys; and the child
process environment built by `_start_process` always maps
`CUDA_DEVICE_ORDER` to `PCI_BUS_ID`. -/
theorem environment_composition (E1 E2 : Environment)
    (h1 : (E1.vars.map Prod.fst).Nodup) (h2 : (E2.vars.map Prod.fst).Nodup)
    (k : String) :
    dget (get_combined_vars [E1, E2]) k =
      pairCombination (dget E1.vars k) (dget E2.vars k)
    ∧ ∀ (host_env extra : Dict String) (env_set : List Environment),
        dget (start_process_env host_env env_set extra) "CUDA_DEVICE_ORDER" =
          some "PCI_BUS_ID" := by
  constructor
  · have unfold2 : get_combined_vars [E1, E2] =
        E2.vars.foldl (fun a kv => insertVar a kv.1 kv.2)
          (E1.vars.foldl (fun a kv => insertVar a kv.1 kv.2) []) := rfl
    rw [unfold2]
    cases hg1 : dget E1.vars k with
    | some v1 =>
      have hm1 := mem_of_dget_eq_some _ _ _ hg1
      have base1 : dget (E1.vars.foldl (fun a kv => insertVar a kv.1 kv.2) []) k =
          some v1 := by
        rw [fold_insertVar_mem _ _ _ _ h1 hm1]
        simp
      cases hg2 : dget E2.vars k with
      | some v2 =>
        have hm2 := mem_of_dget_eq_some _ _ _ hg2
        rw [fold_insertVar_mem _ _ _ _ h2 hm2, base1]
        simp [pairCombination]
      | none =>
        have hk2 := not_mem_keys_of_dget_eq_none _ _ hg2
        rw [fold_insertVar_not_mem _ _ _ hk2, base1]
        simp [pairCombination]
    | none =>
      have hk1 := not_mem_keys_of_dget_eq_none _ _ hg1
      have base1 : dget (E1.vars.foldl (fun a kv => insertVar a kv.1 kv.2) []) k =
          none := by
        rw [fold_insertVar_not_mem _ _ _ hk1]
        simp
      cases hg2 : dget E2.vars k with
      | some v2 =>
        have hm2 := mem_of_dget_eq_some _ _ _ hg2
        rw [fold_insertVar_mem _ _ _ _ h2 hm2, base1]
        simp [pairCombination]
      | none =>
        have hk2 := not_mem_keys_of_dget_eq_none _ _ hg2
        rw [fold_insertVar_not_mem _ _ _ hk2, base1]
        simp [pairCombination]
  · intro host_env extra env_set
    unfold start_process_env
    exact dget_dict_update_mem _ _ _ _ (by simp) (by simp)

/-- Witness for `environment_composition` at concrete environments that
collide on `CUDA_VISIBLE_DEVICES`. -/
theorem environment_composition_witness :
    dget (get_combined_vars
        [⟨"gpu0", [("CUDA_VISIBLE_DEVICES", "0"), ("A", "x")]⟩,
         ⟨"gpu1", [("CUDA_VISIBLE_DEVICES", "1"), ("B", "y")]⟩])
        "CUDA_VISIBLE_DEVICES" =
      pairCombination (some "0") (some "1")
    ∧ dget (start_process_env [("PATH", "/bin")]
        [⟨"gpu0", [("CUDA_VISIBLE_DEVICES", "0")]⟩] [("K", "v")])
        "CUDA_DEVICE_ORDER" = some "PCI_BUS_ID" := by
  have h := environment_composition
    ⟨"gpu0", [("CUDA_VISIBLE_DEVICES", "0"), ("A", "x")]⟩
    ⟨"gpu1", [("CUDA_VISIBLE_DEVICES", "1"), ("B", "y")]⟩
    (by decide) (by decide) "CUDA_VISIBLE_DEVICES"
  refine ⟨?_, h.2 [("PATH", "/bin")] [("K", "v")] [⟨"gpu0", [("CUDA_VISIBLE_DEVICES", "0")]⟩]⟩
  rw [h.1]
  decide

/-! ## `protocols.py`: adapters and the protocol table -/

/-- Python truthiness of a JSON scalar. -/
def jTruthy : JVal → Bool
  | .s v => v ≠ ""
  | .n v => v ≠ 0
  | .b v => v
  | .null => false

/-- Python `str()` of a JSON scalar, as rendered inside an f-string. -/
def jstr : JVal → String
  | .s v => v
  | .n v => toString v
  | .b true => "True"
  | .b false => "False"
  | .null => "None"

/-- Python exceptions reachable in the embedded proxy code. -/
inductive PyExc where
  | requestException (msg : String)
  | keyError (key : String)
  | nameError (nm : String)
  | typeError (msg : String)
  | valueError (msg : String)
deriving DecidableEq, Repr

/-- `protocols.dalle_txt2img_request_adapter(data, target_url)`.  The
source pops consumed keys out of the supplied dict, so the result is the
pair (adapted payload, final contents of the supplied dict).
`data["prompt"]` raises `KeyError` when `prompt` is absent, and
`data.pop("steps") > 1` raises `TypeError` on a non-integer value. -/
def dalle_txt2img_request_adapter (data : Payload) (target_url : String) :
    Except PyExc (Payload × Payload) := do
  let prompt ← match dget data "prompt" with
    | some v => Except.ok v
    | none => Except.error (PyExc.keyError "prompt")
  let adapted : Payload := [("prompt", prompt), ("response_format", .s "b64_json")]
  -- Map batch count to n
  let (adapted, data) :=
    if din data "batch_count" then
      let (v, d) := dpop data "batch_count"
      (dset adapted "n" (v.getD .null), d)
    else (adapted, data)
  -- Map steps to quality (1=standard, >1=hd)
  let (adapted, data) ←
    if din data "steps" then
      let (v, d) := dpop data "steps"
      match v with
      | some (.n i) =>
        Except.ok (dset adapted "quality" (.s (if i > 1 then "hd" else "standard")), d)
      | _ => Except.error (PyExc.typeError "unsupported comparison with int")
    else Except.ok (adapted, data)
  -- Combine width/height into size
  let (adapted, data) :=
    if din data "width" && din data "height" then
      let (w, d1) := dpop data "width"
      let (h, d2) := dpop d1 "height"
      (dset adapted "size" (.s (jstr (w.getD .null) ++ "x" ++ jstr (h.getD .null))), d2)
    else (adapted, data)
  -- Map sampler to style
  let (adapted, data) :=
    if din data "sampler_name" then
      let (v, d) := dpop data "sampler_name"
      (dset adapted "style" (v.getD .null), d)
    else (adapted, data)
  return (adapted, data)

/-- `protocols.sd_server_txt2img_request_adapter(data, target_url)`.  The
source copies the supplied dict first and mutates only the copy, so the
supplied dict is returned unchanged as the second component. -/
def sd_server_txt2img_request_adapter (data : Payload) (target_url : String) :
    Payload × Payload :=
  let adapted := data
  let adapted := if din adapted "model" then (dpop adapted "model").2 else adapted
  let adapted :=
    if din adapted "sampler_name" then
      let (v, d) := dpop adapted "sampler_name"
      dset d "sample_method" (v.getD .null)
    else adapted
  let adapted :=
    if din adapted "steps" then
      let (v, d) := dpop adapted "steps"
      dset d "sample_steps" (v.getD .null)
    else adapted
  (adapted, data)

/-- An adapter entry of the `PROTOCOLS` table as seen from the call sites
in `proxy._handle_request`: the Python function's name and the number of
positional parameters its `def` declares.  (Both response adapter bodies,
`dalle_txt2img_response_adapter` and the polling
`sd_server_txt2img_response_adapter`, are never reached through the proxy
— see `call_with_one_argument` — and no claim depends on their output, so
their bodies are not modelled.) -/
structure AdapterCall where
  fname : String
  param_count : Nat
deriving DecidableEq, Repr

/-- Python call semantics for the proxy's `request_adapter(data)` and
`response_adapter(response_data)` call sites, which supply exactly one
positional argument.  A function declaring a different number of
parameters raises `TypeError` before its body runs.  Every adapter in
`PROTOCOLS` declares two parameters `(data, target_url)`, so the
one-parameter success branch is vacuous for the table below. -/
def call_with_one_argument (a : AdapterCall) (data : Payload) : Except PyExc Payload :=
  if a.param_count = 1 then Except.ok data
  else Except.error (PyExc.typeError
    (a.fname ++ "() missing 1 required positional argument: target_url"))

/-- One entry of the `protocols.PROTOCOLS` table. -/
structure ProtocolDef where
  health_check : Option String
  health_status : Nat
  completions : Option String
  chat_completions : Option String
  txt2img : Option String
  img2img : Option String
  txt2img_request_adapter : Option AdapterCall := none
  txt2img_response_adapter : Option AdapterCall := none
  image_sampler_map : Dict String := []
deriving DecidableEq, Repr

def dalle_def : ProtocolDef :=
  { health_check := some "/v1/models"
    health_status := 200
    completions := none
    chat_completions := none
    txt2img := some "/v1/images/generations"
    txt2img_request_adapter := some ⟨"dalle_txt2img_request_adapter", 2⟩
    txt2img_response_adapter := some ⟨"dalle_txt2img_response_adapter", 2⟩
    img2img := none
    image_sampler_map := [("Euler", "natural"), ("Euler A", "vivid")] }

/-- The first `openai` entry of the source dict literal.  The literal
repeats the `openai` key, so this value is overwritten by
`openai_def` below (Python keeps the last value for a repeated key). -/
def openai_def_shadowed : ProtocolDef :=
  { health_check := some "/health"
    health_status := 200
    completions := some "/v1/completions"
    chat_completions := some "/v1/chat/completions"
    txt2img := none
    img2img := none }

/-- The effective `openai` entry (the second occurrence in the literal). -/
def openai_def : ProtocolDef :=
  { health_check := some "/v1/models"
    health_status := 200
    completions := some "/v1/completions"
    chat_completions := some "/v1/chat/completions"
    txt2img := none
    img2img := none }

def a1111_def : ProtocolDef :=
  { health_check := some "/sdapi/v1/sd-models"
    health_status := 200
    completions := none
    chat_completions := none
    txt2img := some "/sdapi/v1/txt2img"
    img2img := some "/sdapi/v1/img2img"
    image_sampler_map :=
      [("Euler", "k_euler"), ("Euler A", "k_euler_a"), ("Heun", "k_heun"),
       ("DPM2", "k_dpm_2"), ("DPM++", "k_dpmpp_2m"), ("LCM", "k_lcm")] }

def sd_server_def : ProtocolDef :=
  { health_check := some "/"
    health_status := 404
    completions := none
    chat_completions := none
    txt2img := some "/txt2img"
    txt2img_request_adapter := some ⟨"sd_server_txt2img_request_adapter", 2⟩
    txt2img_response_adapter := some ⟨"sd_server_txt2img_response_adapter", 2⟩
    img2img := none
    image_sampler_map :=
      [("Euler", "euler"), ("Euler A", "euler_a"), ("Heun", "heun"),
       ("DPM2", "dpm2"), ("DPM++", "dpm++2m"), ("LCM", "lcm")] }

/-- `protocols.PROTOCOLS` as a keyed lookup. -/
def PROTOCOLS (key : String) : Option ProtocolDef :=
  if key = "dall-e" then some dalle_def
  else if key = "openai" then some openai_def
  else if key = "a1111" then some a1111_def
  else if key = "sd-server" then some sd_server_def
  else none

/-- The four proxied endpoint classes. -/
inductive EndpointType where
  | completions
  | chat_completions
  | txt2img
  | img2img
deriving DecidableEq, Repr

/-- The dict key `endpoint_type` used for `PROTOCOLS[protocol][endpoint_type]`. -/
def endpoint_key : EndpointType → String
  | .completions => "completions"
  | .chat_completions => "chat_completions"
  | .txt2img => "txt2img"
  | .img2img => "img2img"

/-- `PROTOCOLS[protocol][endpoint_type]`: the backend path for an
endpoint class. -/
def ProtocolDef.endpoint_path (p : ProtocolDef) : EndpointType → Option String
  | .completions => p.completions
  | .chat_completions => p.chat_completions
  | .txt2img => p.txt2img
  | .img2img => p.img2img

/-- `PROTOCOLS[protocol].get(f"{endpoint_type}_request_adapter")`: the
table defines request adapters only under the `txt2img` keys. -/
def ProtocolDef.request_adapter_for (p : ProtocolDef) : EndpointType → Option AdapterCall
  | .txt2img => p.txt2img_request_adapter
  | _ => none

/-- `PROTOCOLS[protocol].get(f"{endpoint_type}_response_adapter")`. -/
def ProtocolDef.response_adapter_for (p : ProtocolDef) : EndpointType → Option AdapterCall
  | .txt2img => p.txt2img_response_adapter
  | _ => none

/-- Truthiness of an endpoint path entry (`None` and `""` are falsy). -/
def truthyPath : Option String → Bool
  | some s => s ≠ ""
  | none => false

/-! ## `proxy.py`: public routes -/

/-- The routes registered by `ProxyServer.setup_routes`, as
(path, method) pairs. -/
def proxy_setup_routes : List (String × String) :=
  [("/health", "GET"),
   ("/.well-known/serviceinfo", "GET"),
   ("/v1/models", "GET"),
   ("/v1/completions", "POST"),
   ("/v1/chat/completions", "POST"),
   ("/sdapi/v1/sd-models", "GET"),
   ("/sdapi/v1/txt2img", "POST"),
   ("/sdapi/v1/img2img", "POST")]

/-- The routes registered by `ZooKeeper.setup_routes` (dashboard glue). -/
def zookeeper_setup_routes : List (String × String) :=
  [("/", "GET"),
   ("/api/model/launch", "POST"),
   ("/api/model/stop", "POST"),
   ("/api/model/logs", "POST"),
   ("/api/model/status", "POST"),
   ("/api/running_models", "GET")]

/-- Every route of the application's public HTTP surface. -/
def public_routes : List (String × String) :=
  zookeeper_setup_routes ++ proxy_setup_routes

/-- **C3 counterexample.** The public surface defines no POST route at
`/v1/images/generations`; that path occurs only as the `dall-e` backend
protocol's `txt2img` endpoint path. -/
theorem images_generations_route_absent :
    ("/v1/images/generations", "POST") ∉ public_routes
    ∧ dalle_def.txt2img = some "/v1/images/generations" := by
  constructor
  · decide
  · rfl

/-- **C3 (amended).** The proxy's public HTTP surface consists of
`/v1/models`, `/v1/completions`, `/v1/chat/completions`,
`/sdapi/v1/sd-models`, `/sdapi/v1/txt2img`, `/sdapi/v1/img2img`,
`/health` and `/.well-known/serviceinfo`; there is no
`/v1/images/generations` route under any method. -/
theorem proxy_public_surface :
    ("/v1/models", "GET") ∈ proxy_setup_routes
    ∧ ("/v1/completions", "POST") ∈ proxy_setup_routes
    ∧ ("/v1/chat/completions", "POST") ∈ proxy_setup_routes
    ∧ ("/sdapi/v1/sd-models", "GET") ∈ proxy_setup_routes
    ∧ ("/sdapi/v1/txt2img", "POST") ∈ proxy_setup_routes
    ∧ ("/sdapi/v1/img2img", "POST") ∈ proxy_setup_routes
    ∧ ("/health", "GET") ∈ proxy_setup_routes
    ∧ ("/.well-known/serviceinfo", "GET") ∈ proxy_setup_routes
    ∧ ∀ method, ("/v1/images/generations", method) ∉ public_routes := by
  refine ⟨by decide, by decide, by decide, by decide, by decide, by decide,
    by decide, by decide, ?_⟩
  intro method hmem
  simp only [public_routes, zookeeper_setup_routes, proxy_setup_routes,
    List.append_eq, List.cons_append, List.nil_append, List.mem_cons,
    Prod.mk.injEq, List.not_mem_nil] at hmem
  rcases hmem with h | h | h | h | h | h | h | h | h | h | h | h | h | h | h
  all_goals first
    | (exact absurd h.1 (by decide))
    | exact h

/-! ## `zk.py`: the model registry and peer fan-out -/

/-- The `listener` sub-dict of an available-model entry. -/
structure ListenerInfo where
  protocol : String
  host : String
  port : Nat
deriving DecidableEq, Repr

/-- One entry of the unified available-models list
(`ZooKeeper.get_available_models`).  The `status` sub-dict is flattened
into the `running`/`ready` fields. -/
structure AvailableModel where
  model_name : String
  model_id : String
  running : Bool
  ready : Bool
  listener : ListenerInfo
  source : String
  environment : String
deriving DecidableEq, Repr

/-- The data of one local `RunningModel` consumed by
`get_available_models`; `running`/`ready` stand for the outcome of
`rmodel.status()` (a process poll plus a health probe). -/
structure LocalRunning where
  model_name : String
  model_id : String
  protocol : String
  port : Nat
  running : Bool
  ready : Bool
  environment_set : List Environment
deriving DecidableEq, Repr

/-- The local contribution: host is rewritten to `127.0.0.1` and
`source` is `"local"`. -/
def localEntry (r : LocalRunning) : AvailableModel :=
  { model_name := r.model_name
    model_id := r.model_id
    running := r.running
    ready := r.ready
    listener := { protocol := r.protocol, host := "127.0.0.1", port := r.port }
    source := "local"
    environment := get_combined_name r.environment_set }

/-- Outcome of `requests.get("http://host:port/api/running_models")` for
one peer: the parsed `running_models` list, or any raised error
(timeout, non-2xx via `raise_for_status`, JSON parse failure). -/
inductive FetchResult where
  | ok (models : List AvailableModel)
  | error (msg : String)
deriving DecidableEq, Repr

/-- One configured peer together with its fan-out outcome. -/
structure Peer where
  host : String
  port : Nat
  fetch : FetchResult
deriving DecidableEq, Repr

/-- The entries one peer contributes: on success each advertised model
gets its listener host overwritten with the peer's host and its source
set to `remote:<host>`; on any error the peer contributes nothing (the
source only prints the error and continues with the other peers). -/
def peerEntries (p : Peer) : List AvailableModel :=
  match p.fetch with
  | .ok ms => ms.map (fun m =>
      { m with listener := { m.listener with host := p.host },
               source := "remote:" ++ p.host })
  | .error _ => []

/-- `ZooKeeper.get_available_models(local_models, remote_models)`. -/
def get_available_models (local_models remote_models : Bool)
    (running : List LocalRunning) (peers : List Peer) : List AvailableModel :=
  (if local_models then running.map localEntry else []) ++
  (if remote_models then peers.foldl (fun acc p => acc ++ peerEntries p) [] else [])

theorem foldl_append_peerEntries (peers : List Peer) :
    ∀ acc, peers.foldl (fun acc p => acc ++ peerEntries p) acc =
      acc ++ peers.foldl (fun acc p => acc ++ peerEntries p) [] := by
  induction peers with
  | nil => intro acc; simp
  | cons hd tl ih =>
    intro acc
    rw [List.foldl_cons, List.foldl_cons, List.nil_append, ih, ih (peerEntries hd),
      List.append_assoc]

theorem peers_fold_append (peers1 peers2 : List Peer) :
    (peers1 ++ peers2).foldl (fun acc p => acc ++ peerEntries p) [] =
      peers1.foldl (fun acc p => acc ++ peerEntries p) [] ++
      peers2.foldl (fun acc p => acc ++ peerEntries p) [] := by
  rw [List.foldl_append, foldl_append_peerEntries]

/-- A peer whose fan-out GET fails. -/
def c8_bad_peer : Peer := ⟨"peer1", 3333, .error "timeout"⟩

/-- The model advertised by the healthy peer. -/
def c8_good_model : AvailableModel :=
  ⟨"m2", "id2", true, true, ⟨"openai", "0.0.0.0", 5001⟩, "local", "empty"⟩

/-- A peer whose fan-out GET succeeds. -/
def c8_good_peer : Peer := ⟨"peer2", 3333, .ok [c8_good_model]⟩

/-- The healthy peer's model after host/source rewriting. -/
def c8_result : AvailableModel :=
  ⟨"m2", "id2", true, true, ⟨"openai", "peer2", 5001⟩, "remote:peer2", "empty"⟩

/-- **C8 counterexample.** With one failing peer and one healthy peer the
registry returns only the healthy peer's (rewritten) model: no
`{host, port, error, models: []}` snapshot for the failing peer appears
anywhere in the returned list. -/
theorem peer_error_no_snapshot :
    get_available_models true true [] [c8_bad_peer, c8_good_peer] = [c8_result]
    ∧ ∀ e ∈ get_available_models true true [] [c8_bad_peer, c8_good_peer],
        e.source ≠ "remote:peer1" := by
  refine ⟨rfl, ?_⟩
  intro e he
  rw [show get_available_models true true [] [c8_bad_peer, c8_good_peer] = [c8_result]
    from rfl] at he
  obtain rfl := List.mem_singleton.mp he
  decide

/-- **C8 (amended).** A failing peer contributes nothing to the result
(the error is only logged; no error snapshot is recorded in the returned
list) and never prevents the other peers from contributing: the result
with the failing peer equals the result without it, and every returned
entry is either local or comes from a peer whose fetch succeeded. -/
theorem peer_isolation (running : List LocalRunning) (peers1 peers2 : List Peer)
    (p : Peer) (msg : String) (hp : p.fetch = .error msg) :
    get_available_models true true running (peers1 ++ p :: peers2) =
      get_available_models true true running (peers1 ++ peers2)
    ∧ ∀ e ∈ get_available_models true true running (peers1 ++ p :: peers2),
        e.source = "local" ∨
        ∃ q ∈ peers1 ++ peers2, ∃ ms, q.fetch = .ok ms ∧
          e.source = "remote:" ++ q.host := by
  have hpe : peerEntries p = [] := by
    unfold peerEntries
    rw [hp]
  constructor
  · unfold get_available_models
    rw [peers_fold_append, peers_fold_append, List.foldl_cons, List.nil_append, hpe]
  · intro e he
    unfold get_available_models at he
    simp only [if_pos rfl] at he
    rcases List.mem_append.mp he with h | h
    · left
      obtain ⟨r, _, rfl⟩ := List.mem_map.mp h
      rfl
    · right
      have hmem : ∀ (ps : List Peer),
          e ∈ ps.foldl (fun acc p => acc ++ peerEntries p) [] →
          ∃ q ∈ ps, e ∈ peerEntries q := by
        intro ps
        induction ps with
        | nil => intro h0; cases h0
        | cons hd tl ih =>
          intro h0
          rw [List.foldl_cons, foldl_append_peerEntries, List.nil_append] at h0
          rcases List.mem_append.mp h0 with h1 | h1
          · exact ⟨hd, List.mem_cons_self _ _, h1⟩
          · obtain ⟨q, hq, hq2⟩ := ih h1
            exact ⟨q, List.mem_cons_of_mem _ hq, hq2⟩
      obtain ⟨q, hq, hq2⟩ := hmem _ h
      have hq' : q ∈ peers1 ++ peers2 := by
        rcases List.mem_append.mp hq with h1 | h1
        · exact List.mem_append.mpr (Or.inl h1)
        · rcases List.mem_cons.mp h1 with h2 | h2
          · subst h2
            rw [hpe] at hq2
            cases hq2
          · exact List.mem_append.mpr (Or.inr h2)
      refine ⟨q, hq', ?_⟩
      unfold peerEntries at hq2
      cases hf : q.fetch with
      | ok ms =>
        rw [hf] at hq2
        obtain ⟨m, _, rfl⟩ := List.mem_map.mp hq2
        exact ⟨ms, rfl, rfl⟩
      | error m =>
        rw [hf] at hq2
        cases hq2

/-- Concrete data for the `peer_isolation` witness. -/
def w8_loc : LocalRunning := ⟨"loc", "lid", "openai", 5000, true, true, []⟩

def w8_pa : Peer := ⟨"pa", 1, .ok []⟩

def w8_pb : Peer := ⟨"pb", 2, .error "timeout"⟩

def w8_pc : Peer := ⟨"pc", 3, .ok []⟩

/-- Witness for `peer_isolation` at a concrete failing peer between two
healthy peers. -/
theorem peer_isolation_witness :
    get_available_models true true [w8_loc] ([w8_pa] ++ w8_pb :: [w8_pc]) =
      get_available_models true true [w8_loc] ([w8_pa] ++ [w8_pc])
    ∧ ∀ e ∈ get_available_models true true [w8_loc] ([w8_pa] ++ w8_pb :: [w8_pc]),
        e.source = "local" ∨
        ∃ q ∈ [w8_pa] ++ [w8_pc], ∃ ms, q.fetch = .ok ms ∧
          e.source = "remote:" ++ q.host :=
  peer_isolation [w8_loc] [w8_pa] [w8_pc] w8_pb "timeout" rfl

/-- Deconstruct membership in the peer fan-out fold. -/
theorem mem_peers_fold (ps : List Peer) (e : AvailableModel)
    (h : e ∈ ps.foldl (fun acc p => acc ++ peerEntries p) []) :
    ∃ q ∈ ps, e ∈ peerEntries q := by
  induction ps with
  | nil => cases h
  | cons hd tl ih =>
    rw [List.foldl_cons, foldl_append_peerEntries, List.nil_append] at h
    rcases List.mem_append.mp h with h1 | h1
    · exact ⟨hd, List.mem_cons_self _ _, h1⟩
    · obtain ⟨q, hq, hq2⟩ := ih h1
      exact ⟨q, List.mem_cons_of_mem _ hq, hq2⟩

/-- Entries contributed by a peer carry that peer's `remote:<host>` source
and witness a successful fetch. -/
theorem source_of_mem_peerEntries (q : Peer) (e : AvailableModel)
    (h : e ∈ peerEntries q) :
    e.source = "remote:" ++ q.host ∧ ∃ ms, q.fetch = .ok ms := by
  unfold peerEntries at h
  cases hf : q.fetch with
  | ok ms =>
    rw [hf] at h
    obtain ⟨m, _, rfl⟩ := List.mem_map.mp h
    exact ⟨rfl, ms, rfl⟩
  | error m =>
    rw [hf] at h
    cases h

/-! ## `proxy.py`: `GET /v1/models` -/

/-- One element of the `data` list returned by `get_models`. -/
structure ModelEntry where
  id : String
  owned_by : String
deriving DecidableEq, Repr

/-- The filter applied by `get_models`: the model's protocol is in
`PROTOCOLS` and its `completions` or `chat_completions` entry is truthy. -/
def text_capable (protocol : String) : Bool :=
  match PROTOCOLS protocol with
  | some pd => truthyPath pd.completions || truthyPath pd.chat_completions
  | none => false

/-- One iteration of the `get_models` loop over `available_models`:
insert the entry into the `unique_models` dict unless the name is
already present (first entry per name wins). -/
def get_models_step (acc : Dict ModelEntry) (m : AvailableModel) : Dict ModelEntry :=
  if text_capable m.listener.protocol && ! din acc m.model_name then
    acc ++ [(m.model_name, ⟨m.model_name, m.source⟩)]
  else acc

/-- The `unique_models` dict built by `ProxyServer.get_models`. -/
def get_models_fold (available_models : List AvailableModel) : Dict ModelEntry :=
  available_models.foldl get_models_step []

/-- `ProxyServer.get_models`: the `data` list
(`list(unique_models.values())`). -/
def get_models (available_models : List AvailableModel) : List ModelEntry :=
  (get_models_fold available_models).map Prod.snd

theorem dget_append_single_other {α : Type} (d : Dict α) (k k' : String) (v : α)
    (h : k ≠ k') : dget (d ++ [(k', v)]) k = dget d k := by
  rw [dget_append]
  cases hg : dget d k <;> simp [dget_cons, Ne.symm h]

theorem dget_eq_none_of_not_mem_keys {α : Type} (d : Dict α) (k : String)
    (h : k ∉ d.map Prod.fst) : dget d k = none := by
  cases hg : dget d k with
  | none => rfl
  | some v =>
    exact absurd (List.mem_map.mpr ⟨(k, v), mem_of_dget_eq_some _ _ _ hg, rfl⟩) h

theorem get_models_step_skip (acc : Dict ModelEntry) (m : AvailableModel)
    (h : (text_capable m.listener.protocol && ! din acc m.model_name) ≠ true) :
    get_models_step acc m = acc := by
  unfold get_models_step
  rw [if_neg h]

theorem get_models_step_add (acc : Dict ModelEntry) (m : AvailableModel)
    (h : (text_capable m.listener.protocol && ! din acc m.model_name) = true) :
    get_models_step acc m = acc ++ [(m.model_name, ⟨m.model_name, m.source⟩)] := by
  unfold get_models_step
  rw [if_pos h]

theorem dget_none_of_din_false {α : Type} (d : Dict α) (k : String)
    (h : din d k = false) : dget d k = none := by
  unfold din at h
  cases hg : dget d k with
  | none => rfl
  | some v => rw [hg] at h; cases h

/-- Once a name is present in `unique_models` its entry never changes
(first wins). -/
theorem get_models_fold_frozen (avail : List AvailableModel) (M : String) :
    ∀ acc, din acc M = true →
      dget (avail.foldl get_models_step acc) M = dget acc M := by
  induction avail with
  | nil => intro acc _; rfl
  | cons m rest ih =>
    intro acc hin
    rw [List.foldl_cons]
    by_cases hname : m.model_name = M
    · have hstep : get_models_step acc m = acc := by
        refine get_models_step_skip _ _ ?_
        rw [hname, hin]
        simp
      rw [hstep]
      exact ih acc hin
    · by_cases hcond : (text_capable m.listener.protocol && ! din acc m.model_name) = true
      · rw [get_models_step_add _ _ hcond]
        have hin2 : din (acc ++ [(m.model_name, ⟨m.model_name, m.source⟩)]) M = true := by
          unfold din at hin ⊢
          rw [dget_append_single_other _ _ _ _ (fun e => hname e.symm)]
          exact hin
        rw [ih _ hin2, dget_append_single_other _ _ _ _ (fun e => hname e.symm)]
      · rw [get_models_step_skip _ _ hcond]
        exact ih acc hin

/-- While a name is absent from `unique_models`, the fold assigns it the
entry of the first qualifying available model with that name. -/
theorem get_models_fold_first (avail : List AvailableModel) (M : String) :
    ∀ acc, din acc M = false →
      dget (avail.foldl get_models_step acc) M =
        (avail.find? (fun m => text_capable m.listener.protocol &&
          m.model_name = M)).map (fun m => ModelEntry.mk M m.source) := by
  induction avail with
  | nil =>
    intro acc hout
    rw [List.foldl_nil, List.find?_nil, dget_none_of_din_false _ _ hout]
    rfl
  | cons m rest ih =>
    intro acc hout
    rw [List.foldl_cons]
    by_cases hname : m.model_name = M
    · subst hname
      by_cases htc : text_capable m.listener.protocol = true
      · have hcond : (text_capable m.listener.protocol && ! din acc m.model_name) = true := by
          rw [htc, hout]
          rfl
        rw [get_models_step_add _ _ hcond]
        have hgetM : dget (acc ++ [(m.model_name, ⟨m.model_name, m.source⟩)])
            m.model_name = some ⟨m.model_name, m.source⟩ := by
          rw [dget_append, dget_none_of_din_false _ _ hout]
          simp [dget_cons]
        have hin : din (acc ++ [(m.model_name, ⟨m.model_name, m.source⟩)])
            m.model_name = true := by
          unfold din
          rw [hgetM]
          rfl
        rw [get_models_fold_frozen _ _ _ hin, hgetM,
          List.find?_cons_of_pos _ (by simp [htc])]
        rfl
      · have hstep : get_models_step acc m = acc := by
          refine get_models_step_skip _ _ ?_
          intro hcond
          exact htc (Bool.and_eq_true .. |>.mp hcond).1
        rw [hstep, ih _ hout, List.find?_cons_of_neg]
        intro hp
        exact htc (Bool.and_eq_true .. |>.mp hp).1
    · by_cases hcond : (text_capable m.listener.protocol && ! din acc m.model_name) = true
      · rw [get_models_step_add _ _ hcond]
        have hout2 : din (acc ++ [(m.model_name, ⟨m.model_name, m.source⟩)]) M = false := by
          unfold din at hout ⊢
          rw [dget_append_single_other _ _ _ _ (fun e => hname e.symm)]
          exact hout
        rw [ih _ hout2, List.find?_cons_of_neg]
        intro hp
        exact hname (of_decide_eq_true (Bool.and_eq_true .. |>.mp hp).2)
      · rw [get_models_step_skip _ _ hcond, ih _ hout, List.find?_cons_of_neg]
        intro hp
        exact hname (of_decide_eq_true (Bool.and_eq_true .. |>.mp hp).2)

/-- Every value stored in the fold satisfies a property holding for the
initial accumulator and for every `(model_name, source)` pair of the
input list. -/
theorem get_models_fold_sources (P : ModelEntry → Prop)
    (avail : List AvailableModel)
    (havail : ∀ m ∈ avail, P ⟨m.model_name, m.source⟩) :
    ∀ acc, (∀ kv ∈ acc, P kv.2) →
      ∀ kv ∈ avail.foldl get_models_step acc, P kv.2 := by
  induction avail with
  | nil => intro acc hacc kv hkv; exact hacc kv hkv
  | cons m rest ih =>
    intro acc hacc kv hkv
    rw [List.foldl_cons] at hkv
    refine ih (fun m2 hm2 => havail m2 (List.mem_cons_of_mem _ hm2)) _ ?_ kv hkv
    intro kv2 hkv2
    by_cases hcond : (text_capable m.listener.protocol && ! din acc m.model_name) = true
    · rw [get_models_step_add _ _ hcond] at hkv2
      rcases List.mem_append.mp hkv2 with h | h
      · exact hacc kv2 h
      · rcases List.mem_singleton.mp h with rfl
        exact havail m (List.mem_cons_self _ _)
    · rw [get_models_step_skip _ _ hcond] at hkv2
      exact hacc kv2 hkv2

/-- Keys of the `unique_models` fold stay unique and each value's `id`
equals its key. -/
theorem get_models_fold_wf (avail : List AvailableModel) :
    ∀ acc, (acc.map Prod.fst).Nodup → (∀ kv ∈ acc, kv.2.id = kv.1) →
      ((avail.foldl get_models_step acc).map Prod.fst).Nodup ∧
      (∀ kv ∈ avail.foldl get_models_step acc, kv.2.id = kv.1) := by
  induction avail with
  | nil => intro acc h1 h2; exact ⟨h1, h2⟩
  | cons m rest ih =>
    intro acc h1 h2
    rw [List.foldl_cons]
    by_cases hcond : (text_capable m.listener.protocol && ! din acc m.model_name) = true
    · rw [get_models_step_add _ _ hcond]
      refine ih _ ?_ ?_
      · rw [List.map_append, List.nodup_append]
        refine ⟨h1, List.nodup_singleton _, ?_⟩
        intro a ha hb
        rcases List.mem_singleton.mp (by simpa using hb) with rfl
        have hdin : din acc m.model_name = false := by
          rcases Bool.and_eq_true .. |>.mp hcond with ⟨_, hr⟩
          cases hd : din acc m.model_name
          · rfl
          · rw [hd] at hr; cases hr
        obtain ⟨⟨k0, v0⟩, hkv, hfst⟩ := List.mem_map.mp ha
        simp only at hfst
        subst hfst
        exact absurd ((dget_none_of_din_false _ _ hdin).symm.trans
          (dget_eq_of_mem_nodup _ _ _ h1 hkv)) (by simp)
      · intro kv hkv
        rcases List.mem_append.mp hkv with h | h
        · exact h2 kv h
        · rcases List.mem_singleton.mp h with rfl
          rfl
    · rw [get_models_step_skip _ _ hcond]
      exact ih _ h1 h2

/-- Filtering the values list of a well-formed dict by `id = M` yields the
binding at `M` (or nothing). -/
theorem filter_values_eq_binding (l : Dict ModelEntry) (M : String)
    (h1 : (l.map Prod.fst).Nodup) (h2 : ∀ kv ∈ l, kv.2.id = kv.1) :
    (l.map Prod.snd).filter (fun e => e.id = M) =
      ((dget l M).map (fun e => [e])).getD [] := by
  induction l with
  | nil => rfl
  | cons hd tl ih =>
    obtain ⟨k, e⟩ := hd
    have hid : e.id = k := h2 (k, e) (List.mem_cons_self _ _)
    simp only [List.map_cons, List.nodup_cons] at h1
    rw [List.map_cons, List.filter_cons, dget_cons]
    by_cases hk : k = M
    · subst hk
      simp only [hid, decide_True, if_true]
      have htl : dget tl k = none :=
        dget_eq_none_of_not_mem_keys _ _ h1.1
      have : (tl.map Prod.snd).filter (fun e2 => e2.id = k) = [] := by
        rw [ih h1.2 (fun kv hkv => h2 kv (List.mem_cons_of_mem _ hkv)), htl]
        rfl
      rw [this]
      rfl
    · simp only [hid, hk, decide_False]
      rw [ih h1.2 (fun kv hkv => h2 kv (List.mem_cons_of_mem _ hkv))]
      simp

theorem find?_append_isSome {α : Type} (p : α → Bool) (l1 l2 : List α)
    (h : (l1.find? p).isSome) : (l1 ++ l2).find? p = l1.find? p := by
  induction l1 with
  | nil => simp [List.find?] at h
  | cons a tl ih =>
    by_cases hp : p a = true
    · rw [List.cons_append, List.find?_cons_of_pos _ hp, List.find?_cons_of_pos _ hp]
    · rw [List.find?_cons_of_neg _ hp] at h
      rw [List.cons_append, List.find?_cons_of_neg _ hp, List.find?_cons_of_neg _ hp]
      exact ih h

/-- **C4 counterexample.** A model running both locally (`openai`
protocol) and at a peer yields a single `/v1/models` entry whose
`owned_by` is the literal source string `"local"`, not `"modelzoo"`. -/
def c4_local : LocalRunning := ⟨"foo", "foo-id", "openai", 50001, true, true, []⟩

def c4_peer : Peer :=
  ⟨"peerhost", 3333,
    .ok [⟨"foo", "foo-id", true, true, ⟨"openai", "0.0.0.0", 5001⟩, "local", "empty"⟩]⟩

theorem owned_by_is_local_not_modelzoo :
    get_models (get_available_models true true [c4_local] [c4_peer]) =
      [⟨"foo", "local"⟩]
    ∧ ∀ e ∈ get_models (get_available_models true true [c4_local] [c4_peer]),
        e.owned_by ≠ "modelzoo" := by
  refine ⟨rfl, ?_⟩
  intro e he
  rw [show get_models (get_available_models true true [c4_local] [c4_peer]) =
    [⟨"foo", "local"⟩] from rfl] at he
  obtain rfl := List.mem_singleton.mp he
  decide

/-- **C4 (amended).** If a model named `M` is running locally with a
text-capable protocol (and possibly also at peers), `GET /v1/models`
returns exactly one entry with id `M`, and that entry has `owned_by`
equal to `"local"`; every other entry's `owned_by` is `"local"` or
`"remote:<host>"` for some configured peer. -/
theorem models_local_wins (running : List LocalRunning) (peers : List Peer)
    (M : String) (r : LocalRunning) (hr : r ∈ running) (hname : r.model_name = M)
    (htext : text_capable r.protocol = true) :
    (get_models (get_available_models true true running peers)).filter
      (fun e => e.id = M) = [⟨M, "local"⟩]
    ∧ ∀ e ∈ get_models (get_available_models true true running peers),
        e.owned_by = "local" ∨ ∃ p ∈ peers, e.owned_by = "remote:" ++ p.host := by
  have hwf : ((get_models_fold (get_available_models true true running peers)).map
      Prod.fst).Nodup ∧
      ∀ kv ∈ get_models_fold (get_available_models true true running peers),
        kv.2.id = kv.1 :=
    get_models_fold_wf _ [] (by simp) (by simp)
  constructor
  · unfold get_models
    rw [filter_values_eq_binding _ _ hwf.1 hwf.2]
    unfold get_models_fold
    rw [get_models_fold_first _ _ [] rfl]
    have hsome : ((running.map localEntry).find?
        (fun m => text_capable m.listener.protocol && m.model_name = M)).isSome := by
      rw [List.find?_isSome]
      refine ⟨localEntry r, List.mem_map.mpr ⟨r, hr, rfl⟩, ?_⟩
      simp [localEntry, htext, hname]
    have hfind : (get_available_models true true running peers).find?
        (fun m => text_capable m.listener.protocol && m.model_name = M) =
        ((running.map localEntry).find?
          (fun m => text_capable m.listener.protocol && m.model_name = M)) := by
      unfold get_available_models
      simp only [if_pos rfl]
      exact find?_append_isSome _ _ _ hsome
    obtain ⟨x, hf⟩ := Option.isSome_iff_exists.mp hsome
    rw [hfind, hf]
    have hmem := List.mem_of_find?_eq_some hf
    obtain ⟨r2, _, heq⟩ := List.mem_map.mp hmem
    subst heq
    rfl
  · intro e he
    unfold get_models at he
    obtain ⟨kv, hkv, rfl⟩ := List.mem_map.mp he
    refine get_models_fold_sources
      (fun en => en.owned_by = "local" ∨ ∃ p ∈ peers, en.owned_by = "remote:" ++ p.host)
      _ ?_ [] (by simp) kv hkv
    intro m hm
    unfold get_available_models at hm
    simp only [if_pos rfl] at hm
    rcases List.mem_append.mp hm with h | h
    · left
      obtain ⟨r2, _, rfl⟩ := List.mem_map.mp h
      rfl
    · right
      obtain ⟨q, hq, hq2⟩ := mem_peers_fold _ _ h
      obtain ⟨hsrc, _⟩ := source_of_mem_peerEntries _ _ hq2
      exact ⟨q, hq, hsrc⟩

/-- **C10.** `get_available_models` lists all local entries (in launch
order, with source `"local"`) before every remote entry (grouped in
configured peer order, with source `remote:<host>`), so the first entry
carrying any locally running name is the local one — the ordering that
makes first-wins deduplication implement local precedence. -/
theorem available_models_ordering (running : List LocalRunning) (peers : List Peer)
    (M : String) (r : LocalRunning) (hr : r ∈ running) (hname : r.model_name = M) :
    get_available_models true true running peers =
      running.map localEntry ++ peers.foldl (fun acc p => acc ++ peerEntries p) []
    ∧ (∀ e ∈ running.map localEntry, e.source = "local")
    ∧ (∀ e ∈ peers.foldl (fun acc p => acc ++ peerEntries p) [],
        ∃ q ∈ peers, e.source = "remote:" ++ q.host)
    ∧ ((get_available_models true true running peers).find?
        (fun e => e.model_name = M)).map AvailableModel.source = some "local" := by
  refine ⟨rfl, ?_, ?_, ?_⟩
  · intro e he
    obtain ⟨r2, _, rfl⟩ := List.mem_map.mp he
    rfl
  · intro e he
    obtain ⟨q, hq, hq2⟩ := mem_peers_fold _ _ he
    exact ⟨q, hq, (source_of_mem_peerEntries _ _ hq2).1⟩
  · have hsome : ((running.map localEntry).find?
        (fun e => e.model_name = M)).isSome := by
      rw [List.find?_isSome]
      exact ⟨localEntry r, List.mem_map.mpr ⟨r, hr, rfl⟩, by simp [localEntry, hname]⟩
    have hfind : (get_available_models true true running peers).find?
        (fun e => e.model_name = M) =
        (running.map localEntry).find? (fun e => e.model_name = M) := by
      unfold get_available_models
      simp only [if_pos rfl]
      exact find?_append_isSome _ _ _ hsome
    obtain ⟨x, hf⟩ := Option.isSome_iff_exists.mp hsome
    obtain ⟨r2, _, heq⟩ := List.mem_map.mp (List.mem_of_find?_eq_some hf)
    rw [hfind, hf]
    subst heq
    rfl

/-- Concrete local model for the `available_models_ordering` witness. -/
def w10_run : LocalRunning := ⟨"wm", "wm-id", "openai", 50010, true, true, []⟩

/-- Witness for `available_models_ordering`: one local model and one
remote peer advertising the same name. -/
theorem available_models_ordering_witness :
    get_available_models true true [w10_run] [c8_good_peer] =
      [w10_run].map localEntry ++
        [c8_good_peer].foldl (fun acc p => acc ++ peerEntries p) []
    ∧ (∀ e ∈ [w10_run].map localEntry, e.source = "local")
    ∧ (∀ e ∈ [c8_good_peer].foldl (fun acc p => acc ++ peerEntries p) [],
        ∃ q ∈ [c8_good_peer], e.source = "remote:" ++ q.host)
    ∧ ((get_available_models true true [w10_run] [c8_good_peer]).find?
        (fun e => e.model_name = "wm")).map AvailableModel.source = some "local" :=
  available_models_ordering [w10_run] [c8_good_peer] "wm" w10_run
    (List.mem_singleton.mpr rfl) rfl

/-- Witness for `models_local_wins`: the model `foo` runs locally and at
a peer; `/v1/models` keeps exactly the local entry. -/
theorem models_local_wins_witness :
    (get_models (get_available_models true true [c4_local] [c4_peer])).filter
      (fun e => e.id = "foo") = [⟨"foo", "local"⟩]
    ∧ ∀ e ∈ get_models (get_available_models true true [c4_local] [c4_peer]),
        e.owned_by = "local" ∨ ∃ p ∈ [c4_peer], e.owned_by = "remote:" ++ p.host :=
  models_local_wins [c4_local] [c4_peer] "foo" c4_local
    (List.mem_singleton.mpr rfl) rfl rfl

/-! ## `proxy.py`: `_handle_request` -/

/-- Python truthiness of `data.get("model")` (`None` when absent). -/
def truthyOpt : Option JVal → Bool
  | some v => jTruthy v
  | none => false

/-- One candidate built by the routing loop: a matching model instance
with its resolved backend endpoint URL. -/
structure ModelInstance where
  model_name : String
  model_id : String
  protocol : String
  url : String
deriving DecidableEq, Repr

/-- The routing loop over `available_models`: a model is a candidate iff
its `model_name` equals the requested value and its protocol's endpoint
path for this class is truthy.  `PROTOCOLS.get(protocol, {})[endpoint_type]`
raises `KeyError` for a matching model whose protocol is unknown. -/
def buildCandidates (endpoint_type : EndpointType) (requested : JVal) :
    List AvailableModel → Except PyExc (List ModelInstance)
  | [] => Except.ok []
  | m :: rest =>
    if JVal.s m.model_name = requested then
      match PROTOCOLS m.listener.protocol with
      | none => Except.error (PyExc.keyError (endpoint_key endpoint_type))
      | some pd =>
        let endpoint := pd.endpoint_path endpoint_type
        if truthyPath endpoint then
          (buildCandidates endpoint_type requested rest).map
            (fun instances =>
              ⟨m.model_name, m.model_id, m.listener.protocol,
                "http://" ++ m.listener.host ++ ":" ++ toString m.listener.port ++
                  endpoint.getD ""⟩ :: instances)
        else buildCandidates endpoint_type requested rest
    else buildCandidates endpoint_type requested rest

/-- `min(model_instances, key=lambda x: active_connections[x.url])`:
the first candidate with the smallest live-connection count. -/
def select_least_connections (active_connections : String → Int)
    (first : ModelInstance) (rest : List ModelInstance) : ModelInstance :=
  rest.foldl
    (fun best x =>
      if active_connections x.url < active_connections best.url then x else best)
    first

/-- Update one entry of the connection-count map. -/
def bump (c : String → Int) (u : String) (delta : Int) : String → Int :=
  fun v => if v = u then c v + delta else c v

/-- Outcome of `resp.json()`. -/
inductive JsonParse where
  | ok (p : Payload)
  | error (msg : String)
deriving DecidableEq, Repr

/-- The backend's reply to the forwarded `requests.post`. -/
structure BackendResp where
  status_code : Nat
  content_type : String
  body : JsonParse
deriving DecidableEq, Repr

/-- Outcome of `requests.post(target_url, ...)`: a reply or a raised
`requests.RequestException`. -/
inductive PostResult where
  | ok (resp : BackendResp)
  | error (msg : String)
deriving DecidableEq, Repr

/-- The body of the response the proxy hands back to its caller. -/
inductive RespBody where
  | json (p : Payload)
  | raw (content_type : String)
  | streamed (content_type : String)
deriving DecidableEq, Repr

/-- A response on the proxy's public surface. -/
structure HttpResponse where
  status : Nat
  body : RespBody
deriving DecidableEq, Repr

/-- `jsonify({"error": msg}), status`. -/
def errorResponse (status : Nat) (msg : String) : HttpResponse :=
  ⟨status, .json [("error", .s msg)]⟩

/-- `str(e)` for the embedded exceptions. -/
def excMessage : PyExc → String
  | .requestException m => m
  | .keyError k => k
  | .nameError nm => "name " ++ nm ++ " is not defined"
  | .typeError m => m
  | .valueError m => m

/-- The two `except` clauses closing `_handle_request`:
`requests.RequestException` yields a Network error, everything else an
Unexpected error, both as 500s. -/
def exceptResponse : PyExc → HttpResponse
  | .requestException m => errorResponse 500 ("Network error: " ++ m)
  | e => errorResponse 500 ("Unexpected error: " ++ excMessage e)

/-- The in-place sampler rewrite (`proxy.py` lines 172-175): on an image
endpoint with a `sampler_name` present in the selected protocol's
`image_sampler_map`, the INBOUND dict is mutated before it is copied. -/
def sampler_rewrite (endpoint_type : EndpointType) (pd : ProtocolDef)
    (data : Payload) : Payload :=
  if (endpoint_type = .txt2img || endpoint_type = .img2img) && din data "sampler_name"
  then
    match dget data "sampler_name" with
    | some (.s sname) =>
      match dget pd.image_sampler_map sname with
      | some mapped => dset data "sampler_name" (.s mapped)
      | none => data
    | _ => data
  else data

/-- The forwarding tail of the inner `try` block: decide streaming from
the (post-adapter) payload, post to the backend, mirror its status, and
apply the response adapter to JSON bodies. -/
def forward_and_respond (endpoint_type : EndpointType) (pd : ProtocolDef)
    (data : Payload) (post : PostResult) : Except PyExc HttpResponse :=
  let should_stream := truthyOpt (dget data "stream")
  match post with
  | .error m => Except.error (PyExc.requestException m)
  | .ok resp =>
    let content_type := resp.content_type
    if should_stream then
      Except.ok ⟨resp.status_code, .streamed content_type⟩
    else
      if content_type = "application/json" then
        match resp.body with
        | .error m => Except.error (PyExc.valueError m)
        | .ok response_data =>
          match pd.response_adapter_for endpoint_type with
          | some adapter =>
            match call_with_one_argument adapter response_data with
            | .error e => Except.error e
            | .ok adapted => Except.ok ⟨resp.status_code, .json adapted⟩
          | none => Except.ok ⟨resp.status_code, .json response_data⟩
      else Except.ok ⟨resp.status_code, .raw content_type⟩

/-- The inner `try` block (`proxy.py` lines 170-219): sampler rewrite (in
place on the inbound dict), copy, model-id replacement, request adapter,
forward.  Returns the block's outcome together with the final contents of
the caller's dict object. -/
def innerForward (endpoint_type : EndpointType) (protocol : String)
    (selected_model_id : String) (data : Payload) (post : PostResult) :
    Except PyExc HttpResponse × Payload :=
  match PROTOCOLS protocol with
  | none => (Except.error (PyExc.keyError protocol), data)
  | some pd =>
    let data := sampler_rewrite endpoint_type pd data
    let copied := dset data "model" (.s selected_model_id)
    let result :=
      match pd.request_adapter_for endpoint_type with
      | some adapter =>
        match call_with_one_argument adapter copied with
        | .error e => Except.error e
        | .ok adapted => forward_and_respond endpoint_type pd adapted post
      | none => forward_and_respond endpoint_type pd copied post
    (result, data)

/-- The value returned by the embedded `_handle_request`: the HTTP
response, the final connection-count map, and the final contents of the
inbound payload object. -/
structure HandleResult where
  resp : HttpResponse
  counters : String → Int
  inbound : Payload

/-- Assemble `_handle_request`'s return value from the inner try block's
outcome and the (post-`finally`) connection-count map: a successful
response passes through, an exception goes to the `except` clauses. -/
def finish_request (fwd : Except PyExc HttpResponse × Payload)
    (counters : String → Int) : HandleResult :=
  match fwd.1 with
  | .ok resp => ⟨resp, counters, fwd.2⟩
  | .error e => ⟨exceptResponse e, counters, fwd.2⟩

/-- `ProxyServer._handle_request(endpoint_type, data)`.  `counters` is
`active_connections`; `post` is the network oracle for the forwarded
request.  The empty-candidates branch evaluates an f-string referencing
the undefined name `model_name`, so it raises `NameError` and lands in
the generic `except` clause.  In the routed branch the counter at the
selected URL is incremented before the inner block runs and decremented
in the `finally`, which the embedding records as the composed update. -/
def handle_request_core (endpoint_type : EndpointType) (data : Payload)
    (available_models : List AvailableModel) (counters : String → Int)
    (post : PostResult) : HandleResult :=
  if truthyOpt (dget data "model") then
    match buildCandidates endpoint_type ((dget data "model").getD .null)
        available_models with
    | .error e => ⟨exceptResponse e, counters, data⟩
    | .ok [] => ⟨exceptResponse (PyExc.nameError "model_name"), counters, data⟩
    | .ok (first :: rest) =>
      let selected := select_least_connections counters first rest
      finish_request
        (innerForward endpoint_type selected.protocol selected.model_id data post)
        (bump (bump counters selected.url 1) selected.url (-1))
  else ⟨errorResponse 400 "Model not specified in the request", counters, data⟩

/-- `ProxyServer.handle_request`: JSON check and required-key check, then
`_handle_request`. -/
def handle_request (endpoint_type : EndpointType) (required_keys : List String)
    (is_json : Bool) (data : Payload) (available_models : List AvailableModel)
    (counters : String → Int) (post : PostResult) : HandleResult :=
  if is_json then
    if (required_keys.filter (fun k => ! din data k)).isEmpty then
      handle_request_core endpoint_type data available_models counters post
    else
      ⟨errorResponse 400 ("Missing required keys: " ++
        String.intercalate ", " (required_keys.filter (fun k => ! din data k))),
        counters, data⟩
  else ⟨errorResponse 400 "Request must be JSON", counters, data⟩

theorem finish_request_counters (fwd : Except PyExc HttpResponse × Payload)
    (counters : String → Int) : (finish_request fwd counters).counters = counters := by
  unfold finish_request
  split <;> rfl

theorem finish_request_inbound (fwd : Except PyExc HttpResponse × Payload)
    (counters : String → Int) : (finish_request fwd counters).inbound = fwd.2 := by
  unfold finish_request
  split <;> rfl

theorem bump_up_down (c : String → Int) (u : String) :
    bump (bump c u 1) u (-1) = c := by
  funext v
  unfold bump
  by_cases hv : v = u
  · rw [if_pos hv, if_pos hv]
    ring
  · rw [if_neg hv, if_neg hv]

/-- One request run through `_handle_request` leaves the connection-count
map unchanged: the increment before forwarding is matched by the
`finally` decrement on every exit path. -/
theorem handle_request_core_counters (endpoint_type : EndpointType) (data : Payload)
    (available_models : List AvailableModel) (counters : String → Int)
    (post : PostResult) :
    (handle_request_core endpoint_type data available_models counters post).counters
      = counters := by
  unfold handle_request_core
  split
  · split
    · rfl
    · rfl
    · exact (finish_request_counters _ _).trans (bump_up_down counters _)
  · rfl

/-- The wrapper `handle_request` also conserves the map. -/
theorem handle_request_counters (endpoint_type : EndpointType)
    (required_keys : List String) (is_json : Bool) (data : Payload)
    (available_models : List AvailableModel) (counters : String → Int)
    (post : PostResult) :
    (handle_request endpoint_type required_keys is_json data available_models
      counters post).counters = counters := by
  unfold handle_request
  split
  · split
    · exact handle_request_core_counters _ _ _ _ _
    · rfl
  · rfl

/-- One inbound public request with everything that determines its
routing outcome: endpoint class, validation inputs, payload, the
available-models snapshot, and the backend network oracle. -/
structure ProxiedRequest where
  endpoint_type : EndpointType
  required_keys : List String
  is_json : Bool
  data : Payload
  available_models : List AvailableModel
  post : PostResult

/-- Run a sequence of proxied requests, threading the connection-count
map through them. -/
def process_all (requests : List ProxiedRequest) (counters : String → Int) :
    String → Int :=
  requests.foldl
    (fun cs r => (handle_request r.endpoint_type r.required_keys r.is_json r.data
      r.available_models cs r.post).counters)
    counters

/-- **C6.** For every sequence of proxied requests — each completed or
aborted in any way the embedding can express (bad request, no candidate,
adapter exception, backend transport error, JSON parse failure, streaming
response) — the live-connection counter is incremented exactly once
before forwarding and decremented exactly once on every exit path, so
after all requests finish every entry of the connection-count map is 0. -/
theorem counter_conservation (requests : List ProxiedRequest) (u : String) :
    process_all requests (fun _ => 0) u = 0 := by
  have hid : ∀ (rs : List ProxiedRequest) (c : String → Int), process_all rs c = c := by
    intro rs
    induction rs with
    | nil => intro c; rfl
    | cons r rest ih =>
      intro c
      unfold process_all
      rw [List.foldl_cons, handle_request_counters]
      exact ih c
  rw [hid]

/-- **C2.** `POST /v1/completions` with `{"model": "ghost"}` and no
matching backend: the 404 line's f-string references the undefined name
`model_name`, so the code raises `NameError` and the generic handler
returns 500 with an Unexpected-error body — not the specified 404. -/
theorem ghost_model_unexpected_error :
    (handle_request_core .completions [("model", .s "ghost")] [] (fun _ => 0)
      (.error "unreached")).resp =
      errorResponse 500 "Unexpected error: name model_name is not defined"
    ∧ (handle_request_core .completions [("model", .s "ghost")] [] (fun _ => 0)
      (.error "unreached")).resp ≠
      errorResponse 404 "Model ghost not found or not running" := by
  exact ⟨rfl, by decide⟩

/-- A `dall-e` backend serving the model name `flux`. -/
def c1_dalle_model : AvailableModel :=
  ⟨"flux", "dall-e-3", true, true, ⟨"dall-e", "127.0.0.1", 50001⟩, "local", "empty"⟩

def c1_data : Payload := [("model", .s "flux"), ("prompt", .s "cat")]

def c1_post : PostResult := .ok ⟨200, "application/json", .ok [("created", .n 1)]⟩

/-- **C1.** A txt2img request routed to the `dall-e` protocol: the proxy
invokes the request adapter with one positional argument while the
adapter declares two (`(data, target_url)`), so the call raises
`TypeError` and the caller receives 500 — the adapter is never applied
with `(payload, target_url)` as specified. -/
theorem adapter_called_with_one_argument :
    (handle_request_core .txt2img c1_data [c1_dalle_model] (fun _ => 0) c1_post).resp
      = errorResponse 500 ("Unexpected error: dalle_txt2img_request_adapter() missing 1 required positional argument: target_url")
    ∧ dalle_def.txt2img_request_adapter = some ⟨"dalle_txt2img_request_adapter", 2⟩
    ∧ sd_server_def.txt2img_request_adapter =
        some ⟨"sd_server_txt2img_request_adapter", 2⟩ :=
  ⟨rfl, rfl, rfl⟩

/-- An `a1111` backend serving the model name `sd`. -/
def c5_a1111_model : AvailableModel :=
  ⟨"sd", "sd-id", true, true, ⟨"a1111", "127.0.0.1", 50002⟩, "local", "empty"⟩

def c5_data : Payload :=
  [("model", .s "sd"), ("prompt", .s "p"), ("sampler_name", .s "Euler")]

def c5_post : PostResult := .ok ⟨200, "application/json", .ok []⟩

/-- **C5 counterexample.** Routing a txt2img request with
`sampler_name: "Euler"` to the `a1111` protocol rewrites the INBOUND
payload object in place (to `k_euler`) before the copy is taken: the
caller's dict is mutated. -/
theorem inbound_payload_mutated :
    (handle_request_core .txt2img c5_data [c5_a1111_model] (fun _ => 0) c5_post).inbound
      = [("model", .s "sd"), ("prompt", .s "p"), ("sampler_name", .s "k_euler")]
    ∧ (handle_request_core .txt2img c5_data [c5_a1111_model] (fun _ => 0)
        c5_post).inbound ≠ c5_data := by
  exact ⟨rfl, by decide⟩

/-- **C5 (amended).** The `sampler_name` rewrite mutates the inbound
payload in place; the model-field replacement and the request adapter
operate on a copy, so every key other than `sampler_name` is unchanged in
the inbound payload.  The `sd-server` request adapter copies before
mutating and so is pure with respect to the dict supplied to it, but the
`dall-e` request adapter pops consumed keys out of the supplied dict. -/
theorem routing_mutates_only_sampler (endpoint_type : EndpointType) (data : Payload)
    (available_models : List AvailableModel) (counters : String → Int)
    (post : PostResult) (k : String) (hk : k ≠ "sampler_name") :
    dget (handle_request_core endpoint_type data available_models counters
        post).inbound k = dget data k
    ∧ (∀ (d : Payload) (u : String), (sd_server_txt2img_request_adapter d u).2 = d)
    ∧ ∃ (d : Payload) (u : String) (res : Payload × Payload),
        dalle_txt2img_request_adapter d u = .ok res ∧ res.2 ≠ d := by
  refine ⟨?_, fun d u => rfl, ?_⟩
  · have hsr : ∀ (pd : ProtocolDef) (d : Payload),
        dget (sampler_rewrite endpoint_type pd d) k = dget d k := by
      intro pd d
      unfold sampler_rewrite
      repeat' split
      all_goals first
        | rfl
        | exact dget_dset_other _ _ _ _ hk
    have hinner : ∀ (protocol model_id : String),
        dget (innerForward endpoint_type protocol model_id data post).2 k =
          dget data k := by
      intro protocol model_id
      unfold innerForward
      cases hpd : PROTOCOLS protocol with
      | none => simp only [hpd]
      | some pd =>
        simp only [hpd]
        exact hsr pd data
    unfold handle_request_core
    split
    · split
      · rfl
      · rfl
      · exact (congrArg (fun p => dget p k) (finish_request_inbound _ _)).trans
          (hinner _ _)
    · rfl
  · exact ⟨[("prompt", .s "x"), ("steps", .n 4)], "",
      ([("prompt", JVal.s "x"), ("response_format", JVal.s "b64_json"),
        ("quality", JVal.s "hd")], [("prompt", JVal.s "x")]),
      rfl, by decide⟩

/-- Witness for `routing_mutates_only_sampler` at the concrete mutated
request of the counterexample, checking the untouched `model` key. -/
theorem routing_mutates_only_sampler_witness :
    ("model" : String) ≠ "sampler_name"
    ∧ (dget (handle_request_core .txt2img c5_data [c5_a1111_model] (fun _ => 0)
          c5_post).inbound "model" = dget c5_data "model"
      ∧ (∀ (d : Payload) (u : String), (sd_server_txt2img_request_adapter d u).2 = d)
      ∧ ∃ (d : Payload) (u : String) (res : Payload × Payload),
          dalle_txt2img_request_adapter d u = .ok res ∧ res.2 ≠ d) :=
  ⟨by decide, routing_mutates_only_sampler .txt2img c5_data [c5_a1111_model]
    (fun _ => 0) c5_post "model" (by decide)⟩

/-! ## `base.py`: `RunningModel.stop` -/

/-- Outcome of `os.killpg`: signal delivered, or `ProcessLookupError`
because the group no longer exists. -/
inductive TermOutcome where
  | delivered
  | noSuchProcess
deriving DecidableEq, Repr

/-- Outcome of `self.process.wait(timeout=5)`. -/
inductive WaitOutcome where
  | exited
  | timedOut
deriving DecidableEq, Repr

/-- The OS-level nondeterminism of one `stop()` call. -/
structure StopWorld where
  sigterm : TermOutcome
  wait : WaitOutcome
  sigkill : TermOutcome
deriving DecidableEq, Repr

/-- The `RunningModel` attributes read and written by `stop()`:
`self.process is not None`, `self._pgid`, `self._running` and
`self._log_thread is not None`. -/
structure RMState where
  process : Bool
  pgid : Option Int
  running : Bool
  log_thread : Bool
deriving DecidableEq, Repr

/-- The trailing `if self._log_thread:` block: join (bounded) and drop
the reader thread. -/
def join_log_thread (s : RMState) : RMState :=
  if s.log_thread then { s with log_thread := false } else s

/-- `self.process = None; self._pgid = None` after the `try`/`except`. -/
def clear_process (s : RMState) : RMState :=
  { s with process := false, pgid := none }

/-- `base.RunningModel.stop(no_wait)`.  The result pairs the final state
with the list of signals actually delivered to the process group; a
raised exception (the `ProcessLookupError` from the `SIGKILL` inside the
`TimeoutExpired` handler, which no clause catches) is `error`. -/
def RunningModel.stop (s : RMState) (no_wait : Bool) (w : StopWorld) :
    Except String (RMState × List String) :=
  if s.process then
    match w.sigterm with
    | .noSuchProcess =>
      -- killpg(SIGTERM) raised ProcessLookupError: caught and logged
      Except.ok (join_log_thread (clear_process { s with running := false }), [])
    | .delivered =>
      if no_wait then
        Except.ok (join_log_thread (clear_process { s with running := false }),
          ["SIGTERM"])
      else
        match w.wait with
        | .exited =>
          Except.ok (join_log_thread (clear_process { s with running := false }),
            ["SIGTERM"])
        | .timedOut =>
          match w.sigkill with
          | .delivered =>
            Except.ok (join_log_thread (clear_process { s with running := false }),
              ["SIGTERM", "SIGKILL"])
          | .noSuchProcess => Except.error "ProcessLookupError"
  else Except.ok (join_log_thread s, [])

theorem join_log_thread_flags (x : RMState) :
    (join_log_thread x).process = x.process ∧
    (join_log_thread x).log_thread = false := by
  unfold join_log_thread
  cases hx : x.log_thread <;> simp [hx]

/-- **C9.** After any completed `stop()`, a second `stop()` is a no-op:
it returns successfully, delivers no signal, and leaves the state
unchanged.  Moreover `stop()` on a process group that has already
terminated (the `SIGTERM` raises `ProcessLookupError`) is not an error
and delivers no signal. -/
theorem stop_idempotent_and_dead_safe (s : RMState) (nw1 : Bool) (w1 : StopWorld)
    (s1 : RMState) (sigs1 : List String)
    (h : RunningModel.stop s nw1 w1 = Except.ok (s1, sigs1)) :
    (∀ (nw2 : Bool) (w2 : StopWorld),
        RunningModel.stop s1 nw2 w2 = Except.ok (s1, []))
    ∧ ∀ (s2 : RMState) (w2 : StopWorld), s2.process = true →
        w2.sigterm = TermOutcome.noSuchProcess →
        RunningModel.stop s2 false w2 =
          Except.ok (join_log_thread (clear_process { s2 with running := false }),
            []) := by
  constructor
  · have hflags : s1.process = false ∧ s1.log_thread = false := by
      unfold RunningModel.stop at h
      split at h
      · split at h
        · obtain ⟨h1, h2⟩ := Prod.mk.inj (Except.ok.inj h)
          subst h1
          exact ⟨(join_log_thread_flags _).1, (join_log_thread_flags _).2⟩
        · split at h
          · obtain ⟨h1, h2⟩ := Prod.mk.inj (Except.ok.inj h)
            subst h1
            exact ⟨(join_log_thread_flags _).1, (join_log_thread_flags _).2⟩
          · split at h
            · obtain ⟨h1, h2⟩ := Prod.mk.inj (Except.ok.inj h)
              subst h1
              exact ⟨(join_log_thread_flags _).1, (join_log_thread_flags _).2⟩
            · split at h
              · obtain ⟨h1, h2⟩ := Prod.mk.inj (Except.ok.inj h)
                subst h1
                exact ⟨(join_log_thread_flags _).1, (join_log_thread_flags _).2⟩
              · exact Except.noConfusion h
      · obtain ⟨h1, h2⟩ := Prod.mk.inj (Except.ok.inj h)
        subst h1
        rename_i hproc
        refine ⟨(join_log_thread_flags _).1.trans ?_, (join_log_thread_flags _).2⟩
        cases hs : s.process
        · rfl
        · exact absurd hs hproc
    intro nw2 w2
    unfold RunningModel.stop
    rw [if_neg (by rw [hflags.1]; simp)]
    have hj : join_log_thread s1 = s1 := by
      unfold join_log_thread
      rw [if_neg (by rw [hflags.2]; simp)]
    rw [hj]
  · intro s2 w2 hp hterm
    obtain ⟨t, wt, kt⟩ := w2
    simp only at hterm
    subst hterm
    unfold RunningModel.stop
    rw [if_pos hp]

/-- Witness for `stop_idempotent_and_dead_safe`: a live model stopped
normally (SIGTERM delivered, child exits in time), then stopped again. -/
theorem stop_idempotent_witness :
    (∀ (nw2 : Bool) (w2 : StopWorld),
        RunningModel.stop ⟨false, none, false, false⟩ nw2 w2 =
          Except.ok (⟨false, none, false, false⟩, []))
    ∧ ∀ (s2 : RMState) (w2 : StopWorld), s2.process = true →
        w2.sigterm = TermOutcome.noSuchProcess →
        RunningModel.stop s2 false w2 =
          Except.ok (join_log_thread (clear_process { s2 with running := false }),
            []) :=
  stop_idempotent_and_dead_safe ⟨true, some 42, true, true⟩ false
    ⟨.delivered, .exited, .delivered⟩ ⟨false, none, false, false⟩ ["SIGTERM"] rfl

end ModelZoo
